import Mathlib

/-!
Shallow embedding of the `aistm7_token` Anchor program
(`src/blockchain/programs/aistm7_token/src/lib.rs`) and verification of its
specification claims.

Modelling conventions:
  - `u64` values are `Nat`; the only place 64-bit wrap-around matters is the
    Rust cast `price as u64` of the oracle's signed 64-bit price, modelled
    explicitly by `i64_to_u64` (reduction modulo 2^64).
  - `i128` arithmetic is `Int` with Rust's truncated (toward-zero) division
    `Int.div`; the intermediate `(candidate - current) * 100` cannot overflow
    `i128` for 64-bit inputs, so plain `Int` multiplication is faithful.
  - Fallible instructions return `Except ErrorCode`; on the Solana runtime an
    error aborts the whole transaction, so the error branches carry no state
    and no event.
  - `Pubkey` values are opaque identifiers (`Nat`); `Clock::get()` is an
    explicit `now : Int` argument.
-/

namespace Aistm7Token

/-- The program's `ErrorCode` enum. -/
inductive ErrorCode where
  | NoPriceFound
  | MathOverflow
  deriving DecidableEq, Repr

/-- The persisted `TokenState` account. -/
structure TokenState where
  authority : Nat
  mint : Nat
  target_usd_value : Nat
  min_tokens : Nat
  max_tokens : Nat
  current_requirement : Nat
  last_update : Int
  deriving DecidableEq, Repr

/-- The `BalanceRequirementUpdated` event. -/
structure BalanceRequirementUpdated where
  new_requirement : Nat
  price : Nat
  timestamp : Int
  deriving DecidableEq, Repr

/-- A Pyth price record as returned by `get_current_price`: the `price`
field is a signed 64-bit integer (range side condition stated where used). -/
structure PythPrice where
  price : Int
  deriving DecidableEq, Repr

/-- Rust `as u64` reinterpretation of an `i64` value: reduction modulo 2^64
(the modulus is written as a numeral so that the definition evaluates). -/
def i64_to_u64 (x : Int) : Nat :=
  (x % 18446744073709551616).toNat

/-- Rust `u64::checked_div`: `none` exactly on a zero divisor. -/
def u64_checked_div (a b : Nat) : Option Nat :=
  if b = 0 then none else some (a / b)

/-- Rust `i128::checked_div`: `none` on a zero divisor or on the overflowing
`i128::MIN / -1` case (the numeral is 2^127); otherwise truncated
(toward-zero) division. -/
def i128_checked_div (a b : Int) : Option Int :=
  if b = 0 ∨ (a = -170141183460469231731687303715884105728 ∧ b = -1) then none
  else some (Int.tdiv a b)

/-- The state written by the `initialize` instruction: fixed policy constants,
the caller's authority and the created mint. `last_update` keeps the
zero-initialized value of the freshly created account (the instruction does
not write it). The mint/CPI plumbing of `initialize` is out of scope. -/
def initTokenState (authority mint : Nat) : TokenState :=
  { authority := authority
    mint := mint
    target_usd_value := 15000000
    min_tokens := 100
    max_tokens := 10000
    current_requirement := 750
    last_update := 0 }

/-- The `update_balance_requirement` instruction. `oracle` is the result of
`price_feed.get_current_price()` (`none` when no price is available), `now`
is `Clock::get()?.unix_timestamp`. Returns the new state together with the
emitted event, if any. -/
def update_balance_requirement (state : TokenState) (oracle : Option PythPrice)
    (now : Int) : Except ErrorCode (TokenState × Option BalanceRequirementUpdated) :=
  match oracle with
  | none => Except.error ErrorCode.NoPriceFound
  | some p =>
    let current_price : Nat := i64_to_u64 p.price
    match u64_checked_div state.target_usd_value current_price with
    | none => Except.error ErrorCode.MathOverflow
    | some raw =>
      let new_requirement : Nat := Nat.max state.min_tokens (Nat.min state.max_tokens raw)
      let requirement_change : Int :=
        if state.current_requirement > 0 then
          (i128_checked_div
            (((new_requirement : Int) - (state.current_requirement : Int)) * 100)
            (state.current_requirement : Int)).getD 100
        else 100
      if requirement_change.natAbs ≥ 1 then
        Except.ok
          ({ state with current_requirement := new_requirement, last_update := now },
            some { new_requirement := new_requirement
                   price := current_price
                   timestamp := now })
      else
        Except.ok (state, none)

/-- The `verify_balance` instruction: the holder token-account `amount`
against the stored requirement. -/
def verify_balance (state : TokenState) (amount : Nat) : Bool :=
  decide (amount ≥ state.current_requirement)

/-- The clamped candidate requirement computed by the updater for a (nonzero)
price: `max(min_tokens, min(max_tokens, target_usd_value / price))`. -/
def candidateOf (state : TokenState) (price : Nat) : Nat :=
  Nat.max state.min_tokens (Nat.min state.max_tokens (state.target_usd_value / price))

/-- The signed percentage change the updater computes for a candidate. -/
def changePctOf (state : TokenState) (candidate : Nat) : Int :=
  if state.current_requirement > 0 then
    (i128_checked_div (((candidate : Int) - (state.current_requirement : Int)) * 100)
      (state.current_requirement : Int)).getD 100
  else 100

/-- States reachable from initialization by successful updater calls. -/
inductive Reachable : TokenState → Prop where
  | init (a m : Nat) : Reachable (initTokenState a m)
  | step (s : TokenState) (p : PythPrice) (now : Int) (s' : TokenState)
      (ev : Option BalanceRequirementUpdated) : Reachable s →
      update_balance_requirement s (some p) now = Except.ok (s', ev) →
      Reachable s'

/-! ### Helper lemmas -/

/-- Characterization of the updater on a nonzero (wrapped) price: it either
commits the clamped candidate together with an event, or returns the state
unchanged with no event, according to the significance filter. -/
theorem update_ok_of_pos (s : TokenState) (p : PythPrice) (now : Int)
    (hp : 0 < i64_to_u64 p.price) :
    update_balance_requirement s (some p) now =
      (if (changePctOf s (candidateOf s (i64_to_u64 p.price))).natAbs ≥ 1 then
        Except.ok ({ s with current_requirement := candidateOf s (i64_to_u64 p.price),
                            last_update := now },
          some { new_requirement := candidateOf s (i64_to_u64 p.price)
                 price := i64_to_u64 p.price
                 timestamp := now })
      else Except.ok (s, none)) := by
  have h0 : i64_to_u64 p.price ≠ 0 := Nat.pos_iff_ne_zero.mp hp
  simp only [update_balance_requirement, u64_checked_div, if_neg h0, candidateOf, changePctOf]

set_option maxRecDepth 8000 in
/-- When the wrapped price is zero, the checked division fails and the
updater returns `MathOverflow`. -/
theorem update_of_wrapped_zero (s : TokenState) (p : PythPrice) (now : Int)
    (h0 : i64_to_u64 p.price = 0) :
    update_balance_requirement s (some p) now = Except.error ErrorCode.MathOverflow := by
  simp [update_balance_requirement, u64_checked_div, h0]

/-- A successful update leaves the state unchanged or commits the clamped
candidate and the timestamp. -/
theorem update_ok_shape (s : TokenState) (p : PythPrice) (now : Int)
    (s' : TokenState) (ev : Option BalanceRequirementUpdated)
    (h : update_balance_requirement s (some p) now = Except.ok (s', ev)) :
    s' = s ∨ s' = { s with
      current_requirement := candidateOf s (i64_to_u64 p.price),
      last_update := now } := by
  by_cases hp : 0 < i64_to_u64 p.price
  · rw [update_ok_of_pos s p now hp] at h
    split at h
    · right
      exact (Prod.mk.injEq _ _ _ _ ▸ (Except.ok.injEq _ _ ▸ h)).1.symm
    · left
      exact (Prod.mk.injEq _ _ _ _ ▸ (Except.ok.injEq _ _ ▸ h)).1.symm
  · exfalso
    have h0 : i64_to_u64 p.price = 0 := Nat.eq_zero_of_not_pos hp
    rw [update_of_wrapped_zero s p now h0] at h
    exact Except.noConfusion h

/-- When the stored requirement is positive, the percentage change is the
truncated signed division the code computes. -/
theorem changePctOf_pos (s : TokenState) (c : Nat) (h : 0 < s.current_requirement) :
    changePctOf s c =
      Int.tdiv (((c : Int) - (s.current_requirement : Int)) * 100)
        (s.current_requirement : Int) := by
  have hne : ¬((s.current_requirement : Int) = 0 ∨
      (((c : Int) - (s.current_requirement : Int)) * 100 =
          -170141183460469231731687303715884105728 ∧
        (s.current_requirement : Int) = -1)) := by
    push_neg
    constructor
    · exact_mod_cast Nat.pos_iff_ne_zero.mp h
    · intro _
      intro hcontra
      have : (0 : Int) ≤ (s.current_requirement : Int) := Int.ofNat_nonneg _
      omega
  simp only [changePctOf, if_pos h, i128_checked_div, if_neg hne, Option.getD_some]

/-- A checked signed division with positive divisor never fails. -/
theorem i128_checked_div_pos (a b : Int) (hb : 0 < b) :
    i128_checked_div a b ≠ none := by
  have hne : ¬(b = 0 ∨ (a = -170141183460469231731687303715884105728 ∧ b = -1)) := by
    push_neg
    exact ⟨by omega, fun _ => by omega⟩
  unfold i128_checked_div
  rw [if_neg hne]
  exact fun hcontra => Option.noConfusion hcontra

/-! ### Claim theorems -/

/-- C1: `verify_balance` returns `true` iff the holder balance is at least
`current_requirement`. It performs no mutation (its type returns only a
`Bool`) and its result depends only on the balance and `current_requirement`:
any two states agreeing on that field give the same answer, so price and time
play no role. -/
theorem verify_balance_correct (s t : TokenState) (b : Nat)
    (h : t.current_requirement = s.current_requirement) :
    (verify_balance s b = true ↔ b ≥ s.current_requirement) ∧
    verify_balance t b = verify_balance s b := by
  unfold verify_balance
  constructor
  · exact decide_eq_true_iff
  · rw [h]

theorem verify_balance_correct_witness :
    (verify_balance (initTokenState 0 0) 750 = true ↔
      750 ≥ (initTokenState 0 0).current_requirement) ∧
    verify_balance { initTokenState 0 0 with last_update := 99 } 750 =
      verify_balance (initTokenState 0 0) 750 :=
  verify_balance_correct (initTokenState 0 0)
    { initTokenState 0 0 with last_update := 99 } 750 rfl

/-- C3: with an oracle price of zero the updater fails with `MathOverflow`;
in the transaction model an error aborts the call, so no successor state is
produced (every field keeps its prior value) and no event is emitted, which
the second conjunct states explicitly. -/
theorem update_zero_price_fails (s : TokenState) (p : PythPrice) (now : Int)
    (hp : p.price = 0) :
    update_balance_requirement s (some p) now = Except.error ErrorCode.MathOverflow ∧
    ∀ (s' : TokenState) (ev : Option BalanceRequirementUpdated),
      update_balance_requirement s (some p) now ≠ Except.ok (s', ev) := by
  have h0 : i64_to_u64 p.price = 0 := by
    rw [show p.price = 0 from hp]
    decide
  refine ⟨update_of_wrapped_zero s p now h0, ?_⟩
  intro s' ev
  rw [update_of_wrapped_zero s p now h0]
  exact fun hcontra => Except.noConfusion hcontra

theorem update_zero_price_fails_witness :
    update_balance_requirement (initTokenState 0 0) (some ⟨0⟩) 7 =
      Except.error ErrorCode.MathOverflow ∧
    ∀ (s' : TokenState) (ev : Option BalanceRequirementUpdated),
      update_balance_requirement (initTokenState 0 0) (some ⟨0⟩) 7 ≠
        Except.ok (s', ev) :=
  update_zero_price_fails (initTokenState 0 0) ⟨0⟩ 7 rfl

/-- C2: bounds invariant. With `min_tokens ≤ max_tokens` and a positive
(wrapped) oracle price, a successful update that commits a new value (emits
an event) yields `min_tokens ≤ current_requirement ≤ max_tokens`, while a
call that does not commit leaves `current_requirement` at its prior value, so
the bound is preserved whenever it held before. -/
theorem update_bounds (s : TokenState) (p : PythPrice) (now : Int)
    (hb : s.min_tokens ≤ s.max_tokens) (hp : 0 < i64_to_u64 p.price)
    (s' : TokenState) (ev : Option BalanceRequirementUpdated)
    (h : update_balance_requirement s (some p) now = Except.ok (s', ev)) :
    (ev.isSome = true →
      s.min_tokens ≤ s'.current_requirement ∧ s'.current_requirement ≤ s.max_tokens) ∧
    (ev = none → s'.current_requirement = s.current_requirement) := by
  rw [update_ok_of_pos s p now hp] at h
  split at h
  · simp only [Except.ok.injEq, Prod.mk.injEq] at h
    obtain ⟨hs, he⟩ := h
    subst hs
    subst he
    constructor
    · intro _
      show s.min_tokens ≤ candidateOf s (i64_to_u64 p.price) ∧
        candidateOf s (i64_to_u64 p.price) ≤ s.max_tokens
      unfold candidateOf
      exact ⟨Nat.le_max_left _ _, Nat.max_le.mpr ⟨hb, Nat.min_le_left _ _⟩⟩
    · intro hcontra
      exact Option.noConfusion hcontra
  · simp only [Except.ok.injEq, Prod.mk.injEq] at h
    obtain ⟨hs, he⟩ := h
    subst hs
    subst he
    constructor
    · intro hcontra
      simp at hcontra
    · intro _
      rfl

theorem update_bounds_witness :
    ((some { new_requirement := 1500, price := 10000, timestamp := 5 } :
        Option BalanceRequirementUpdated).isSome = true →
      (initTokenState 0 0).min_tokens ≤
        ({ initTokenState 0 0 with current_requirement := 1500, last_update := 5 } :
          TokenState).current_requirement ∧
      ({ initTokenState 0 0 with current_requirement := 1500, last_update := 5 } :
          TokenState).current_requirement ≤ (initTokenState 0 0).max_tokens) ∧
    ((some { new_requirement := 1500, price := 10000, timestamp := 5 } :
        Option BalanceRequirementUpdated) = none →
      ({ initTokenState 0 0 with current_requirement := 1500, last_update := 5 } :
          TokenState).current_requirement = (initTokenState 0 0).current_requirement) :=
  update_bounds (initTokenState 0 0) ⟨10000⟩ 5 (by decide) (by decide)
    { initTokenState 0 0 with current_requirement := 1500, last_update := 5 }
    (some { new_requirement := 1500, price := 10000, timestamp := 5 }) (by rfl)

/-- C4: a sub-threshold update is a complete no-op. With a positive stored
requirement and a positive (wrapped) price whose clamped candidate gives a
truncated signed percentage of absolute value below 1, the updater succeeds,
returns the state unchanged (neither `current_requirement` nor `last_update`
is modified) and emits no event; two consecutive such calls therefore leave
both fields unchanged after the second call. -/
theorem update_sub_threshold_noop (s : TokenState) (p₁ p₂ : PythPrice)
    (n₁ n₂ : Int) (hc : 0 < s.current_requirement)
    (hp₁ : 0 < i64_to_u64 p₁.price) (hp₂ : 0 < i64_to_u64 p₂.price)
    (h₁ : (Int.tdiv (((candidateOf s (i64_to_u64 p₁.price) : Int) -
        (s.current_requirement : Int)) * 100) (s.current_requirement : Int)).natAbs < 1)
    (h₂ : (Int.tdiv (((candidateOf s (i64_to_u64 p₂.price) : Int) -
        (s.current_requirement : Int)) * 100) (s.current_requirement : Int)).natAbs < 1) :
    update_balance_requirement s (some p₁) n₁ = Except.ok (s, none) ∧
    update_balance_requirement s (some p₂) n₂ = Except.ok (s, none) := by
  have key : ∀ (p : PythPrice) (n : Int), 0 < i64_to_u64 p.price →
      (Int.tdiv (((candidateOf s (i64_to_u64 p.price) : Int) -
        (s.current_requirement : Int)) * 100) (s.current_requirement : Int)).natAbs < 1 →
      update_balance_requirement s (some p) n = Except.ok (s, none) := by
    intro p n hp hlt
    rw [update_ok_of_pos s p n hp, changePctOf_pos s _ hc, if_neg (by omega)]
  exact ⟨key p₁ n₁ hp₁ h₁, key p₂ n₂ hp₂ h₂⟩

theorem update_sub_threshold_noop_witness :
    update_balance_requirement (initTokenState 0 0) (some ⟨20000⟩) 3 =
      Except.ok (initTokenState 0 0, none) ∧
    update_balance_requirement (initTokenState 0 0) (some ⟨19950⟩) 4 =
      Except.ok (initTokenState 0 0, none) :=
  update_sub_threshold_noop (initTokenState 0 0) ⟨20000⟩ ⟨19950⟩ 3 4
    (by decide) (by decide) (by decide) (by decide) (by decide)

/-- C5: concrete scenario. From the initialized state
(`current_requirement = 750`, `target_usd_value = 15000000`), price 10000
gives raw requirement 1500, which is within the bounds so the candidate is
1500; the percentage change is 100, so the update commits
`current_requirement = 1500` and emits an event with requirement 1500 and
price 10000. -/
theorem update_scenario_price_drop (a m : Nat) (now : Int) :
    candidateOf (initTokenState a m) 10000 = 1500 ∧
    changePctOf (initTokenState a m) 1500 = 100 ∧
    update_balance_requirement (initTokenState a m) (some ⟨10000⟩) now =
      Except.ok ({ initTokenState a m with
                   current_requirement := 1500, last_update := now },
        some { new_requirement := 1500, price := 10000, timestamp := now }) := by
  have e1 : (initTokenState a m).min_tokens = 100 := rfl
  have e2 : (initTokenState a m).max_tokens = 10000 := rfl
  have e3 : (initTokenState a m).target_usd_value = 15000000 := rfl
  have e4 : (initTokenState a m).current_requirement = 750 := rfl
  have hwrap : i64_to_u64 (PythPrice.mk 10000).price = 10000 := by decide
  have hcand : candidateOf (initTokenState a m) 10000 = 1500 := by
    unfold candidateOf
    rw [e1, e2, e3]
    decide
  have hpct : changePctOf (initTokenState a m) 1500 = 100 := by
    unfold changePctOf
    rw [e4]
    decide
  have hp : 0 < i64_to_u64 (PythPrice.mk 10000).price := by decide
  refine ⟨hcand, hpct, ?_⟩
  rw [update_ok_of_pos (initTokenState a m) (PythPrice.mk 10000) now hp, hwrap,
    hcand, hpct]
  simp

/-- C6: truncation edge case. A price move whose clamped candidate differs
from the stored requirement by exactly one token unit but whose change
percentage, computed with the code's truncated signed division, is 0, is
suppressed: the updater commits nothing and emits no event even though the
integer requirement computation changed. -/
theorem update_one_unit_suppressed (s : TokenState) (p : PythPrice) (now : Int)
    (hc : 0 < s.current_requirement) (hp : 0 < i64_to_u64 p.price)
    (hdiff : ((candidateOf s (i64_to_u64 p.price) : Int) -
      (s.current_requirement : Int)).natAbs = 1)
    (hz : Int.tdiv (((candidateOf s (i64_to_u64 p.price) : Int) -
        (s.current_requirement : Int)) * 100) (s.current_requirement : Int) = 0) :
    update_balance_requirement s (some p) now = Except.ok (s, none) := by
  rw [update_ok_of_pos s p now hp, changePctOf_pos s _ hc, hz,
    if_neg (by norm_num)]

theorem update_one_unit_suppressed_witness :
    update_balance_requirement (initTokenState 0 0) (some ⟨19950⟩) 7 =
      Except.ok (initTokenState 0 0, none) :=
  update_one_unit_suppressed (initTokenState 0 0) ⟨19950⟩ 7
    (by decide) (by decide) (by decide) (by decide)

/-- C7: initialization sets the policy fields exactly to
`target_usd_value = 15000000`, `min_tokens = 100`, `max_tokens = 10000`,
`current_requirement = 750`, and records the caller's authority and the
created mint. The seed value 750 is a constant: the theorem holds for every
authority and mint, and initialization takes no price input at all. -/
theorem initTokenState_fields (a m : Nat) :
    (initTokenState a m).target_usd_value = 15000000 ∧
    (initTokenState a m).min_tokens = 100 ∧
    (initTokenState a m).max_tokens = 10000 ∧
    (initTokenState a m).current_requirement = 750 ∧
    (initTokenState a m).authority = a ∧
    (initTokenState a m).mint = m :=
  ⟨rfl, rfl, rfl, rfl, rfl, rfl⟩

/-- C8: frame condition. On every execution path of the updater that yields a
state (commit or sub-threshold no-op; error paths abort the transaction and
yield no state at all), the fields `authority`, `mint`, `target_usd_value`,
`min_tokens` and `max_tokens` keep the values they had before the call: only
`current_requirement` and `last_update` may change. -/
theorem update_preserves_policy_fields (s : TokenState) (o : Option PythPrice)
    (now : Int) (s' : TokenState) (ev : Option BalanceRequirementUpdated)
    (h : update_balance_requirement s o now = Except.ok (s', ev)) :
    s'.authority = s.authority ∧ s'.mint = s.mint ∧
    s'.target_usd_value = s.target_usd_value ∧
    s'.min_tokens = s.min_tokens ∧ s'.max_tokens = s.max_tokens := by
  match o with
  | none => exact Except.noConfusion h
  | some p =>
    rcases update_ok_shape s p now s' ev h with hs | hs <;> subst hs <;>
      exact ⟨rfl, rfl, rfl, rfl, rfl⟩

theorem update_preserves_policy_fields_witness :
    ({ initTokenState 0 0 with current_requirement := 1500, last_update := 5 } :
        TokenState).authority = (initTokenState 0 0).authority ∧
    ({ initTokenState 0 0 with current_requirement := 1500, last_update := 5 } :
        TokenState).mint = (initTokenState 0 0).mint ∧
    ({ initTokenState 0 0 with current_requirement := 1500, last_update := 5 } :
        TokenState).target_usd_value = (initTokenState 0 0).target_usd_value ∧
    ({ initTokenState 0 0 with current_requirement := 1500, last_update := 5 } :
        TokenState).min_tokens = (initTokenState 0 0).min_tokens ∧
    ({ initTokenState 0 0 with current_requirement := 1500, last_update := 5 } :
        TokenState).max_tokens = (initTokenState 0 0).max_tokens :=
  update_preserves_policy_fields (initTokenState 0 0) (some ⟨10000⟩) 5
    { initTokenState 0 0 with current_requirement := 1500, last_update := 5 }
    (some { new_requirement := 1500, price := 10000, timestamp := 5 }) (by rfl)

/-- With a negative `i64` value in range, the `as u64` cast wraps to the value
plus 2^64, which is at least 2^63. -/
theorem i64_to_u64_neg (x : Int) (hneg : x < 0) (hrange : -(2 ^ 63) ≤ x) :
    (i64_to_u64 x : Int) = x + 2 ^ 64 ∧ 2 ^ 63 ≤ i64_to_u64 x := by
  have hpow64 : (2 : Int) ^ 64 = 18446744073709551616 := by norm_num
  have hpow63 : (2 : Int) ^ 63 = 9223372036854775808 := by norm_num
  have hpow63n : (2 : Nat) ^ 63 = 9223372036854775808 := by norm_num
  unfold i64_to_u64
  rw [hpow64, hpow63n]
  rw [hpow63] at hrange
  constructor <;> omega

/-- C9: a negative oracle price is not rejected as `NoPriceFound`: the Rust
`as u64` cast reinterprets it modulo 2^64, giving a wrapped price of at least
2^63; the floor-divided raw requirement is then 0 and the clamped candidate is
`min_tokens = 100`, so from any positive stored requirement whose change
percentage is significant the update commits `current_requirement = 100` and
the event carries the wrapped (huge) price. -/
theorem update_negative_price_wraps (s : TokenState) (p : PythPrice) (now : Int)
    (hneg : p.price < 0) (hrange : -(2 ^ 63) ≤ p.price)
    (htv : s.target_usd_value = 15000000) (hmin : s.min_tokens = 100)
    (hc : 0 < s.current_requirement)
    (hsig : 1 ≤ (changePctOf s 100).natAbs) :
    2 ^ 63 ≤ i64_to_u64 p.price ∧
    update_balance_requirement s (some p) now =
      Except.ok ({ s with current_requirement := 100, last_update := now },
        some { new_requirement := 100, price := i64_to_u64 p.price,
               timestamp := now }) := by
  obtain ⟨hcast, hge⟩ := i64_to_u64_neg p.price hneg hrange
  have hp : 0 < i64_to_u64 p.price := lt_of_lt_of_le (by norm_num) hge
  have hraw : s.target_usd_value / i64_to_u64 p.price = 0 := by
    apply Nat.div_eq_of_lt
    rw [htv]
    calc (15000000 : Nat) < 2 ^ 63 := by norm_num
      _ ≤ i64_to_u64 p.price := hge
  have hcand : candidateOf s (i64_to_u64 p.price) = 100 := by
    unfold candidateOf
    rw [hraw, hmin]
    simp
  rw [update_ok_of_pos s p now hp, hcand, if_pos hsig]
  exact ⟨hge, rfl⟩

theorem update_negative_price_wraps_witness :
    2 ^ 63 ≤ i64_to_u64 (-1) ∧
    update_balance_requirement (initTokenState 0 0) (some ⟨-1⟩) 7 =
      Except.ok ({ initTokenState 0 0 with
                   current_requirement := 100, last_update := 7 },
        some { new_requirement := 100, price := i64_to_u64 (-1),
               timestamp := 7 }) :=
  update_negative_price_wraps (initTokenState 0 0) ⟨-1⟩ 7 (by norm_num)
    (by norm_num) rfl rfl (by decide) (by decide)

/-- C10: in every state reachable from initialization by successful updater
calls, `min_tokens` is 100 and `current_requirement ≥ 100 > 0` (the seed is
750 and every commit clamps to at least `min_tokens`). Consequently the
branch forcing a 100 percent change when `current_requirement == 0` is
unreachable, and the checked signed division computing the change percentage
has a nonzero divisor, so it never returns `none` and its defensive
`unwrap_or(100)` default is never taken, whatever the candidate. -/
theorem reachable_requirement_ge_min (s : TokenState) (h : Reachable s) :
    s.min_tokens = 100 ∧ 100 ≤ s.current_requirement ∧
    0 < s.current_requirement ∧
    ∀ cand : Nat,
      i128_checked_div (((cand : Int) - (s.current_requirement : Int)) * 100)
        (s.current_requirement : Int) ≠ none := by
  have main : s.min_tokens = 100 ∧ 100 ≤ s.current_requirement := by
    induction h with
    | init a m => exact ⟨rfl, by norm_num [initTokenState]⟩
    | step t p now t' ev hr hupd ih =>
      rcases update_ok_shape t p now t' ev hupd with hs | hs <;> subst hs
      · exact ih
      · refine ⟨ih.1, ?_⟩
        show 100 ≤ candidateOf t (i64_to_u64 p.price)
        unfold candidateOf
        calc (100 : Nat) = t.min_tokens := ih.1.symm
          _ ≤ _ := Nat.le_max_left _ _
  obtain ⟨h1, h2⟩ := main
  have hpos : 0 < s.current_requirement := lt_of_lt_of_le (by norm_num) h2
  refine ⟨h1, h2, hpos, fun cand => i128_checked_div_pos _ _ ?_⟩
  exact_mod_cast hpos

theorem reachable_requirement_ge_min_witness :
    (initTokenState 0 0).min_tokens = 100 ∧
    100 ≤ (initTokenState 0 0).current_requirement ∧
    0 < (initTokenState 0 0).current_requirement ∧
    ∀ cand : Nat,
      i128_checked_div
        (((cand : Int) - ((initTokenState 0 0).current_requirement : Int)) * 100)
        (((initTokenState 0 0).current_requirement : Int)) ≠ none :=
  reachable_requirement_ge_min (initTokenState 0 0) (Reachable.init 0 0)

end Aistm7Token
